import Mathlib

/-!
Verification of ArmaDediHelper (src/ArmaDediHelper.py).

This file gives a shallow embedding of the string processing, preset
parsing, parameter-file generation and file/directory reconciliation
logic of the tool, and proves (or refutes) the specification claims
about them.

Modelling conventions:
* Python strings are Lean `String`s; `str.find` (which returns `-1` on
  a miss) is modelled with `Option Nat`.
* Python's `html.parser.HTMLParser` tokenizer is an external library;
  it is modelled as an abstract event stream (`HtmlEvent`).  The
  `handle_starttag` / `handle_data` / `handle_endtag` callbacks, which
  are code of this repository, are modelled concretely.
* `os.path.abspath` on Windows for a relative path is
  `normpath(join(cwd, rel))`; it is modelled by splitting on `'\\'`
  and normalising `.` / `..` components against the components of the
  current working directory (`drive` plus `cwd` component list).
* The filesystem is a pair of a directory list and an association list
  from file path to file content; reads of missing files model the
  caught `open` exceptions (the code returns `[]` / `False` there),
  and file writes are modelled as succeeding.
-/

/-- Boolean prefix test on character lists: `isPrefChk n h` is true iff
`n` is an initial segment of `h` (Python `s[i:i+len(n)] == n`). -/
def isPrefChk : List Char → List Char → Bool
  | [], _ => true
  | _ :: _, [] => false
  | a :: as, b :: bs => if a = b then isPrefChk as bs else false

/-- Index of the first occurrence of `needle` in `hay`, as in Python
`str.find` (which returns the smallest index at which the needle occurs,
and `-1`, here `none`, when it does not occur). -/
def subFind (needle : List Char) : List Char → Option Nat
  | [] => if isPrefChk needle [] then some 0 else none
  | c :: rest =>
    if isPrefChk needle (c :: rest) then some 0
    else (subFind needle rest).map (· + 1)

/-- Models Python `s.find(sub)`: `none` stands for `-1`. -/
def pyFind (s sub : String) : Option Nat :=
  subFind sub.data s.data

/-- Models Python `s.find(sub, start)` for a non-empty `sub`: the search
runs in `s[start:]` and the returned index is relative to `s`. -/
def pyFindFrom (s sub : String) (start : Nat) : Option Nat :=
  (subFind sub.data (s.data.drop start)).map (· + start)

/-- Models the Python containment test `needle in hay` on strings. -/
def pyIn (needle hay : String) : Bool :=
  (subFind needle.data hay.data).isSome

/-- Embedding of `extract_substring(string, start_char, end_char)`
(ArmaDediHelper.py lines 191-206): find the first occurrence of
`start_char`, step over it, find the next occurrence of `end_char`,
and return the slice in between; `None` (here `none`) if either search
fails. -/
def extract_substring (s start_char end_char : String) : Option String :=
  match pyFind s start_char with
  | none => none
  | some i =>
    let start := i + start_char.length
    match pyFindFrom s end_char start with
    | none => none
    | some j => some (String.mk ((s.data.take j).drop start))

/-- Embedding of the mod-ID extraction step of `get_mods_from_preset`
(lines 390-392): `id_index = url.find("=")`; if it is not `-1` the
extracted ID is `url[id_index + 1:]`, otherwise the URL yields no ID. -/
def modIdOf (url : String) : Option String :=
  match pyFind url "=" with
  | some i => some (String.mk (url.data.drop (i + 1)))
  | none => none

/-- Embedding of the loop of `get_mods_from_preset` (lines 388-393)
over the `(name, url)` pairs of `found_mods`: the IDs of the URLs that
contain an `=`, in order; URLs without `=` contribute nothing. -/
def modIds (mods : List (String × String)) : List String :=
  mods.filterMap (fun p => modIdOf p.2)

/-- Abstract event stream produced by the HTML tokenizer (the
`html.parser` library is external to the repository; only the handler
callbacks below are repository code). -/
inductive HtmlEvent where
  | startTag (tag : String) (attrs : List (String × String))
  | data (text : String)
  | endTag (tag : String)
deriving DecidableEq

/-- State of `PresetParser` (lines 342-348): the accumulated
`found_mods` dictionary (insertion-ordered association list with
last-write-wins values), the two slot attributes `current_name` and
`current_link` (`none` models the attribute having been `del`eted), and
the `current_attribute` marker. Initially both slots hold `some ""`. -/
structure ParserState where
  found_mods : List (String × String)
  current_name : Option String
  current_link : Option String
  current_attribute : String
deriving DecidableEq

/-- Initial `PresetParser` state set up by `__init__` (lines 343-348). -/
def initState : ParserState :=
  { found_mods := [], current_name := some "", current_link := some "",
    current_attribute := "" }

/-- Insertion into a Python `dict` viewed as an association list:
an existing key keeps its position and gets the new value, a new key is
appended at the end. -/
def upsert : List (String × String) → String → String → List (String × String)
  | [], k, v => [(k, v)]
  | (k1, v1) :: t, k, v =>
    if k1 = k then (k, v) :: t else (k1, v1) :: upsert t k v

/-- Lookup in a Python `dict` viewed as an association list. -/
def getVal : List (String × String) → String → Option String
  | [], _ => none
  | (k1, v1) :: t, k => if k1 = k then some v1 else getVal t k

/-- The attribute loop of `PresetParser.handle_starttag` (lines
350-360): a `data-type` attribute valued `DisplayName` or `Link` sets
the marker and breaks; a `data-type` attribute with any other value is
skipped; any other attribute resets the marker to `""` and the loop
continues. -/
def starttagLoop (st : ParserState) : List (String × String) → ParserState
  | [] => st
  | (attr, value) :: rest =>
    if attr = "data-type" then
      if value = "DisplayName" then { st with current_attribute := "DisplayName" }
      else if value = "Link" then { st with current_attribute := "Link" }
      else starttagLoop st rest
    else starttagLoop { st with current_attribute := "" } rest

/-- Embedding of `PresetParser.handle_starttag` (lines 350-360); the
tag name is ignored by the source. -/
def handle_starttag (_tag : String) (st : ParserState)
    (attrs : List (String × String)) : ParserState :=
  starttagLoop st attrs

/-- Embedding of `PresetParser.handle_data` (lines 362-366): stash the
stripped text into the slot selected by the marker. -/
def handle_data (text : String) (st : ParserState) : ParserState :=
  let st1 :=
    if st.current_attribute = "DisplayName" then
      { st with current_name := some text.trim } else st
  if st1.current_attribute = "Link" then
    { st1 with current_link := some text.trim } else st1

/-- Embedding of `PresetParser.handle_endtag` (lines 368-373): if both
slot attributes exist (`hasattr`), record the pair in `found_mods` and
`del` both slots; in every case the marker is then reset to `""`. -/
def handle_endtag (_tag : String) (st : ParserState) : ParserState :=
  let st1 :=
    if st.current_name.isSome && st.current_link.isSome then
      { st with
        found_mods := upsert st.found_mods (st.current_name.getD "")
          (st.current_link.getD ""),
        current_name := none, current_link := none }
    else st
  { st1 with current_attribute := "" }

/-- Dispatch of one tokenizer event to the corresponding handler. -/
def parserStep (st : ParserState) : HtmlEvent → ParserState
  | HtmlEvent.startTag tag attrs => handle_starttag tag st attrs
  | HtmlEvent.data text => handle_data text st
  | HtmlEvent.endTag tag => handle_endtag tag st

/-- Feeding a whole event stream to a fresh `PresetParser`
(`parser.feed(presetfile.read())`, line 381). -/
def runParser (evs : List HtmlEvent) : ParserState :=
  evs.foldl parserStep initState

/-- The mod-ID list returned by `get_mods_from_preset` for a parsed
document (lines 386-393). -/
def modIdList (st : ParserState) : List String :=
  modIds st.found_mods

/-- Embedding of the selection loop of `user_prompt_preset` (lines
175-187): the first preset containing the typed name as a substring,
or `""` when none does. -/
def user_prompt_preset (presetname : String) : List String → String
  | [] => ""
  | p :: rest =>
    if pyIn presetname p then p else user_prompt_preset presetname rest

/-- Splits a Windows path into components at `'\\'`, accumulating the
current component in reverse. -/
def splitCompsAux (cur : List Char) : List Char → List String
  | [] => [String.mk cur.reverse]
  | c :: rest =>
    if c = '\\' then String.mk cur.reverse :: splitCompsAux [] rest
    else splitCompsAux (c :: cur) rest

/-- Component list of a Windows path string. -/
def splitPath (s : String) : List String :=
  splitCompsAux [] s.data

/-- Normalisation of path components against an absolute component
stack, as in `ntpath.normpath`: empty and `.` components vanish, `..`
pops the stack (and vanishes at the root). -/
def normComps : List String → List String → List String
  | acc, [] => acc
  | acc, comp :: rest =>
    if comp = "" ∨ comp = "." then normComps acc rest
    else if comp = ".." then normComps acc.dropLast rest
    else normComps (acc ++ [comp]) rest

/-- Joins a list of strings with a separator (no trailing separator). -/
def joinSep (sep : String) : List String → String
  | [] => ""
  | [x] => x
  | x :: y :: rest => x ++ sep ++ joinSep sep (y :: rest)

/-- Models `os.path.abspath(rel)` on Windows for a relative path `rel`,
with the current working directory given as a drive prefix (e.g.
`"C:"`) plus a component list. -/
def pyAbspath (drive : String) (cwd : List String) (rel : String) : String :=
  drive ++ "\\" ++ joinSep "\\" (normComps cwd (splitPath rel))

/-- The absolute path built for one mod ID by `write_params_file`
(line 408): `os.path.abspath(f"..\\..\\workshop\\content\\107410\\{mod}")`. -/
def modPath (drive : String) (cwd : List String) (mod : String) : String :=
  pyAbspath drive cwd ("..\\..\\workshop\\content\\107410\\" ++ mod)

/-- The `modparam` accumulation loop of `write_params_file` (lines
405-409): `modparam += (path + ";")` for each mod ID in order. -/
def modparamOf (drive : String) (cwd : List String) (mods : List String) : String :=
  mods.foldl (fun acc mod => acc ++ (modPath drive cwd mod ++ ";")) ""

/-- The full text written to `params.txt` (line 417):
`f'-servermod=""\n-mod="{modparam}"'`. -/
def paramsContent (drive : String) (cwd : List String) (mods : List String) : String :=
  "-servermod=\"\"\n-mod=\"" ++ modparamOf drive cwd mods ++ "\""

/-- Result of `get_mods_from_preset` (lines 378-393) given the outcome
of reading the preset file: a failed open/decode (the caught exception,
lines 382-384) yields `[]`; otherwise the tokenizer `tok` turns the
text into events which are fed to a fresh `PresetParser`. -/
def getModsFromPreset (tok : String → List HtmlEvent)
    (content : Option String) : List String :=
  match content with
  | none => []
  | some txt => modIdList (runParser (tok txt))

/-- On-disk state: the set of directories (as a list) and the files as
an association list from path to content. -/
structure FS where
  dirs : List String
  files : List (String × String)
deriving DecidableEq

/-- Path of the per-preset directory `ServerProfiles\{preset_name}`. -/
def presetDirPath (name : String) : String :=
  "ServerProfiles\\" ++ name

/-- Destination path of the copied server config (line 309). -/
def dstServerPath (name : String) : String :=
  presetDirPath name ++ "\\server.cfg"

/-- Destination path of the copied basic config (line 310). -/
def dstBasicPath (name : String) : String :=
  presetDirPath name ++ "\\basic.cfg"

/-- Destination path of the generated start script (line 320). -/
def dstBatPath (name : String) : String :=
  presetDirPath name ++ "\\start.bat"

/-- Destination path of the generated parameter file (line 416). -/
def dstParamsPath (name : String) : String :=
  presetDirPath name ++ "\\params.txt"

/-- Path of the base basic config template. -/
def baseBasicPath : String := "ServerProfiles\\base_basic.cfg"

/-- Path of the base server config template. -/
def baseServerPath : String := "ServerProfiles\\base_server.cfg"

/-- The fixed content of the generated `start.bat` (lines 321-326). -/
def startBatContent : String :=
  "start \"\" \"..\\..\\arma3server_x64.exe\" -cfg=\"%~dp0basic.cfg\"" ++
  " -config=\"%~dp0server.cfg\" -profiles=\"%~dp0Profiles\"" ++
  " -port=2302 -par=\"%~dp0params.txt\""

/-- Embedding of `verify_default_configs` (lines 254-287): each base
config that is absent is written with the downloaded content (`dlBasic`
resp. `dlServer`; the network fetch is modelled as succeeding). -/
def verifyDefaultConfigs (dlBasic dlServer : String) (σ : FS) : FS :=
  let σ1 :=
    if (getVal σ.files baseBasicPath).isSome then σ
    else { σ with files := upsert σ.files baseBasicPath dlBasic }
  if (getVal σ1.files baseServerPath).isSome then σ1
  else { σ1 with files := upsert σ1.files baseServerPath dlServer }

/-- Embedding of `write_params_file` (lines 395-422): read the preset
file (a failed read yields no mods), build the parameter text and write
`params.txt`, reporting success. -/
def writeParamsFileFS (tok : String → List HtmlEvent) (drive : String)
    (cwd : List String) (preset name : String) (σ : FS) : Bool × FS :=
  let mods := getModsFromPreset tok (getVal σ.files preset)
  (true,
    { σ with files :=
        (upsert σ.files (dstParamsPath name) (paramsContent drive cwd mods)) })

/-- Embedding of `create_preset_files` (lines 290-334): create the
preset directory if absent, ensure the base configs exist, copy them to
their per-preset destinations (a missing source is the caught
`shutil.copy` failure, returning `False`), emit the start script on
Windows, then write the parameter file. -/
def createPresetFiles (tok : String → List HtmlEvent) (drive : String)
    (cwd : List String) (isWindows : Bool) (dlBasic dlServer : String)
    (preset name : String) (σ : FS) : Bool × FS :=
  let σ1 :=
    if presetDirPath name ∈ σ.dirs then σ
    else { σ with dirs := σ.dirs ++ [presetDirPath name] }
  let σ2 := verifyDefaultConfigs dlBasic dlServer σ1
  match getVal σ2.files baseServerPath with
  | none => (false, σ2)
  | some serverCfg =>
    let σ3 := { σ2 with files := upsert σ2.files (dstServerPath name) serverCfg }
    match getVal σ3.files baseBasicPath with
    | none => (false, σ3)
    | some basicCfg =>
      let σ4 := { σ3 with files := upsert σ3.files (dstBasicPath name) basicCfg }
      let σ5 :=
        if isWindows then
          { σ4 with files := upsert σ4.files (dstBatPath name) startBatContent }
        else σ4
      writeParamsFileFS tok drive cwd preset name σ5

/-- The three reconciliation actions of `check_preset_files` (lines
240-251): regenerate only the mod parameter (choice 2), regenerate
everything (choice 3, and also the create branch for an absent
directory), or do nothing (any other choice). -/
inductive RAction where
  | regenParams
  | regenAll
  | nothing
deriving DecidableEq

/-- Effect of one reconciliation action on the on-disk state. -/
def reconcileAction (tok : String → List HtmlEvent) (drive : String)
    (cwd : List String) (isWindows : Bool) (dlBasic dlServer : String)
    (preset name : String) : RAction → FS → Bool × FS
  | RAction.regenParams, σ => writeParamsFileFS tok drive cwd preset name σ
  | RAction.regenAll, σ =>
      createPresetFiles tok drive cwd isWindows dlBasic dlServer preset name σ
  | RAction.nothing, σ => (true, σ)

/-! ## Helper lemmas about the string-search primitives -/

lemma isPrefChk_iff (n : List Char) : ∀ h, isPrefChk n h = true ↔ ∃ t, h = n ++ t := by
  induction n with
  | nil =>
    intro h
    exact ⟨fun _ => ⟨h, rfl⟩, fun _ => rfl⟩
  | cons a as ih =>
    intro h
    cases h with
    | nil =>
      constructor
      · intro hc
        exact absurd hc (by simp [isPrefChk])
      · rintro ⟨t, ht⟩
        exact absurd ht (by simp)
    | cons b bs =>
      by_cases hab : a = b
      · subst hab
        rw [show isPrefChk (a :: as) (a :: bs) = isPrefChk as bs from by
          simp [isPrefChk]]
        rw [ih bs]
        constructor
        · rintro ⟨t, rfl⟩
          exact ⟨t, rfl⟩
        · rintro ⟨t, ht⟩
          rw [List.cons_append] at ht
          injection ht with h1 h2
          exact ⟨t, h2⟩
      · rw [show isPrefChk (a :: as) (b :: bs) = false from by
          simp [isPrefChk, hab]]
        constructor
        · intro hc
          exact absurd hc (by simp)
        · rintro ⟨t, ht⟩
          rw [List.cons_append] at ht
          injection ht with h1 h2
          exact absurd h1.symm hab

lemma subFind_singleton_not_mem (c : Char) :
    ∀ l : List Char, c ∉ l → subFind [c] l = none := by
  intro l
  induction l with
  | nil => intro _; rfl
  | cons b t ih =>
    intro h
    have hcb : ¬ (c = b) := fun e => h (by simp [e])
    have hpf : isPrefChk [c] (b :: t) = false := by simp [isPrefChk, hcb]
    have ht : c ∉ t := fun hm => h (List.mem_cons_of_mem b hm)
    simp [subFind, hpf, ih ht]

lemma subFind_singleton_at (c : Char) :
    ∀ (a r : List Char), c ∉ a → subFind [c] (a ++ c :: r) = some a.length := by
  intro a
  induction a with
  | nil =>
    intro r _
    simp [subFind, isPrefChk]
  | cons b t ih =>
    intro r h
    have hcb : ¬ (c = b) := fun e => h (by simp [e])
    have hpf : isPrefChk [c] (b :: (t ++ c :: r)) = false := by simp [isPrefChk, hcb]
    have ht : c ∉ t := fun hm => h (List.mem_cons_of_mem b hm)
    simp [subFind, hpf, ih r ht]

lemma modIdOf_append_eq (pre post : String) (h : ('=' : Char) ∉ pre.data) :
    modIdOf (pre ++ "=" ++ post) = some post := by
  have hdata : (pre ++ "=" ++ post).data = pre.data ++ '=' :: post.data := by
    simp [String.data_append]
  have hfind : pyFind (pre ++ "=" ++ post) "=" = some pre.data.length := by
    unfold pyFind
    rw [show ("=" : String).data = ['='] from rfl, hdata]
    exact subFind_singleton_at '=' pre.data post.data h
  unfold modIdOf
  rw [hfind]
  show some (String.mk (((pre ++ "=" ++ post).data).drop (pre.data.length + 1)))
    = some post
  rw [hdata, List.append_cons]
  rw [show pre.data.length + 1 = (pre.data ++ ['=']).length from by simp]
  rw [List.drop_left]

lemma modIdOf_none (url : String) (h : ('=' : Char) ∉ url.data) :
    modIdOf url = none := by
  have hfind : pyFind url "=" = none := by
    unfold pyFind
    rw [show ("=" : String).data = ['='] from rfl]
    exact subFind_singleton_not_mem '=' url.data h
  unfold modIdOf
  rw [hfind]

/-! ## Claim C1: mod-ID extraction from a URL -/

/-- C1 counterexample: the claim says the Mod ID Resolver returns the
substring after the LAST `=`; on `"a=b=c"` the code (`url.find("=")`,
the FIRST `=`) returns `"b=c"`, not `"c"`. -/
theorem c1_counterexample :
    modIdOf "a=b=c" = some "b=c" ∧ modIdOf "a=b=c" ≠ some "c" := by decide

/-- C1 (amended): for every URL, the Mod ID Resolver outputs the
substring strictly after the FIRST `=` character of the URL, and
outputs nothing when the URL contains no `=`. -/
theorem c1_substring_after_first_eq :
    (∀ pre post : String, ('=' : Char) ∉ pre.data →
      modIdOf (pre ++ "=" ++ post) = some post) ∧
    (∀ url : String, ('=' : Char) ∉ url.data → modIdOf url = none) :=
  ⟨fun pre post h => modIdOf_append_eq pre post h,
   fun url h => modIdOf_none url h⟩

/-- Witness for C1 at a concrete Steam workshop URL. -/
theorem c1_witness :
    modIdOf ("http://steamcommunity.com/sharedfiles/filedetails/?id" ++ "=" ++
      "123456789") = some "123456789" ∧
    modIdOf "http:nodelimiter" = none :=
  ⟨c1_substring_after_first_eq.1 "http://steamcommunity.com/sharedfiles/filedetails/?id"
      "123456789" (by decide),
   c1_substring_after_first_eq.2 "http:nodelimiter" (by decide)⟩

/-! ## Claim C2: preset-name extraction from the preset path -/

/-- C2 counterexample: the claim says the derived name lies between the
LAST path separator and the LAST dot; on `"a\b\c.d.html"` that would be
`"c.d"`, but `extract_substring` (first separator, first following dot)
yields `"b\c"`. -/
theorem c2_counterexample :
    extract_substring "a\\b\\c.d.html" "\\" "." = some "b\\c" ∧
    extract_substring "a\\b\\c.d.html" "\\" "." ≠ some "c.d" := by decide

/-- C2 (amended): the derived preset identifier is the substring
between the FIRST path separator and the FIRST `.` that follows it; in
particular for `ServerProfiles\MyPreset.html` it is `MyPreset`. -/
theorem c2_first_sep_first_dot (a b c : String) (h1 : ('\\' : Char) ∉ a.data)
    (h2 : ('.' : Char) ∉ b.data) :
    extract_substring (a ++ "\\" ++ b ++ "." ++ c) "\\" "." = some b := by
  have hdata : (a ++ "\\" ++ b ++ "." ++ c).data =
      a.data ++ '\\' :: (b.data ++ '.' :: c.data) := by
    simp [String.data_append]
  have hfind1 : pyFind (a ++ "\\" ++ b ++ "." ++ c) "\\" = some a.data.length := by
    unfold pyFind
    rw [show ("\\" : String).data = ['\\'] from rfl, hdata]
    exact subFind_singleton_at '\\' a.data (b.data ++ '.' :: c.data) h1
  have hfind2 : pyFindFrom (a ++ "\\" ++ b ++ "." ++ c) "." (a.data.length + 1) =
      some (b.data.length + (a.data.length + 1)) := by
    unfold pyFindFrom
    rw [show ("." : String).data = ['.'] from rfl, hdata, List.append_cons]
    rw [show a.data.length + 1 = (a.data ++ ['\\']).length from by simp]
    rw [List.drop_left]
    rw [subFind_singleton_at '.' b.data c.data h2]
    simp
  unfold extract_substring
  rw [hfind1]
  show (match pyFindFrom (a ++ "\\" ++ b ++ "." ++ c) "."
      (a.data.length + ("\\" : String).length) with
    | none => none
    | some j => some (String.mk
        ((((a ++ "\\" ++ b ++ "." ++ c).data).take j).drop
          (a.data.length + ("\\" : String).length)))) = some b
  rw [show ("\\" : String).length = 1 from rfl]
  rw [hfind2]
  show some (String.mk ((((a ++ "\\" ++ b ++ "." ++ c).data).take
      (b.data.length + (a.data.length + 1))).drop (a.data.length + 1))) = some b
  rw [List.drop_take, Nat.add_sub_cancel, hdata, List.append_cons]
  rw [show a.data.length + 1 = (a.data ++ ['\\']).length from by simp]
  rw [List.drop_left, List.take_left]

/-- Witness for C2: the claim's own example path,
`ServerProfiles\MyPreset.html`, derives exactly `MyPreset`. -/
theorem c2_witness :
    extract_substring ("ServerProfiles" ++ "\\" ++ "MyPreset" ++ "." ++ "html")
      "\\" "." = some "MyPreset" :=
  c2_first_sep_first_dot "ServerProfiles" "MyPreset" "html" (by decide) (by decide)

/-! ## Claim C5: non-emptiness of extracted IDs, silent omission -/

/-- C5 counterexample: the URL `"id="` contains an `=`, yet the
extracted mod ID is the empty string. -/
theorem c5_counterexample :
    ('=' : Char) ∈ "id=".data ∧ modIdOf "id=" = some "" := by decide

/-- C5 (amended): a mod whose URL contains no `=` is silently omitted
from the resulting ID list (the operation does not fail), and when the
first `=` is the last character of the URL the extracted ID is the
empty string, so the extracted ID is non-empty only when some character
follows the first `=`. -/
theorem c5_silent_omission_and_empty_id :
    (∀ (mods : List (String × String)) (nm url : String),
      ('=' : Char) ∉ url.data → modIds (mods ++ [(nm, url)]) = modIds mods) ∧
    (∀ pre : String, ('=' : Char) ∉ pre.data → modIdOf (pre ++ "=") = some "") := by
  constructor
  · intro mods nm url h
    unfold modIds
    rw [List.filterMap_append]
    simp [modIdOf_none url h]
  · intro pre h
    have hx := modIdOf_append_eq pre "" h
    rwa [String.append_empty] at hx

/-- Witness for C5: a URL without `=` contributes nothing to the list,
and a URL ending in its first `=` yields the empty ID. -/
theorem c5_witness :
    modIds ([("CBA", "x?id=1")] ++ [("Broken", "nolink")]) =
      modIds [("CBA", "x?id=1")] ∧
    modIdOf ("x?id" ++ "=") = some "" :=
  ⟨c5_silent_omission_and_empty_id.1 [("CBA", "x?id=1")] "Broken" "nolink"
      (by decide),
   c5_silent_omission_and_empty_id.2 "x?id" (by decide)⟩

/-! ## Claim C3: behaviour of the extractor on element close -/

/-- C3 (confirmed): on each element close, if both pending slots are
populated (the slot attributes exist) the parser records the
`(name, link)` pair in `found_mods` and clears both slots (and the
marker); otherwise it only clears the attribute marker and the mod
mapping is unchanged. -/
theorem c3_endtag_emits_iff_both_slots (evs : List HtmlEvent) (tag : String) :
    runParser (evs ++ [HtmlEvent.endTag tag]) =
      (if (runParser evs).current_name.isSome &&
          (runParser evs).current_link.isSome then
        { found_mods := upsert (runParser evs).found_mods
            ((runParser evs).current_name.getD "")
            ((runParser evs).current_link.getD ""),
          current_name := none, current_link := none, current_attribute := "" }
      else { runParser evs with current_attribute := "" }) := by
  rw [runParser, List.foldl_append]
  show handle_endtag tag (runParser evs) = _
  cases hc : (runParser evs).current_name.isSome &&
      (runParser evs).current_link.isSome <;>
    simp [handle_endtag, hc]

/-! ## Claim C4: start tags with no recognized attribute -/

/-- C4 counterexample: a start tag with no attributes at all leaves the
pending attribute marker unchanged (the attribute loop never runs), so
it is not cleared as the claim states. -/
theorem c4_counterexample :
    (runParser [HtmlEvent.startTag "div" [("data-type", "DisplayName")],
      HtmlEvent.startTag "br" []]).current_attribute = "DisplayName" ∧
    "DisplayName" ≠ "" := by decide

/-- C4 (amended): a start tag carrying neither the display-name
attribute nor the link attribute clears the pending attribute marker
exactly when it carries at least one attribute whose key is not
`data-type`; in particular a start tag with no attributes at all leaves
the whole parser state (marker included) unchanged, and in no case is a
pair emitted. -/
theorem c4_marker_cleared_iff_other_attr (st : ParserState) (tag : String)
    (attrs : List (String × String))
    (h : ∀ p ∈ attrs, ¬(p.1 = "data-type" ∧ (p.2 = "DisplayName" ∨ p.2 = "Link"))) :
    handle_starttag tag st attrs =
      (if attrs.any (fun p => p.1 != "data-type") then
        { st with current_attribute := "" }
      else st) := by
  unfold handle_starttag
  induction attrs generalizing st with
  | nil => simp [starttagLoop]
  | cons pv rest ih =>
    obtain ⟨attr, value⟩ := pv
    have hh := h (attr, value) (List.mem_cons_self _ _)
    have hrest : ∀ p ∈ rest,
        ¬(p.1 = "data-type" ∧ (p.2 = "DisplayName" ∨ p.2 = "Link")) :=
      fun p hp => h p (List.mem_cons_of_mem _ hp)
    by_cases ha : attr = "data-type"
    · subst ha
      have hv1 : ¬(value = "DisplayName") := fun e => hh ⟨rfl, Or.inl e⟩
      have hv2 : ¬(value = "Link") := fun e => hh ⟨rfl, Or.inr e⟩
      show starttagLoop st (("data-type", value) :: rest) = _
      rw [show starttagLoop st (("data-type", value) :: rest) =
          starttagLoop st rest from by
        simp [starttagLoop, hv1, hv2]]
      rw [ih st hrest]
      rw [show (("data-type", value) :: rest).any (fun p => p.1 != "data-type") =
        rest.any (fun p => p.1 != "data-type") from by simp]
    · show starttagLoop st ((attr, value) :: rest) = _
      rw [show starttagLoop st ((attr, value) :: rest) =
          starttagLoop { st with current_attribute := "" } rest from by
        simp [starttagLoop, ha]]
      rw [ih { st with current_attribute := "" } hrest]
      have hany : ((attr, value) :: rest).any (fun p => p.1 != "data-type") = true := by
        simp [List.any_cons, ha]
      rw [hany]
      simp

/-- Witness for C4: a start tag with one unrecognized non-`data-type`
attribute clears the marker. -/
theorem c4_witness :
    handle_starttag "div"
      { found_mods := [], current_name := some "", current_link := some "",
        current_attribute := "DisplayName" } [("class", "x")] =
      { found_mods := [], current_name := some "", current_link := some "",
        current_attribute := "" } := by
  have hx := c4_marker_cleared_iff_other_attr
    { found_mods := [], current_name := some "", current_link := some "",
      current_attribute := "DisplayName" } "div" [("class", "x")] (by decide)
  simpa using hx

/-! ## Claim C10: preset selection -/

lemma string_eq_of_data_eq {x y : String} (h : x.data = y.data) : x = y :=
  congrArg String.mk h

lemma subFind_isSome_iff (n : List Char) :
    ∀ h, (subFind n h).isSome = true ↔ ∃ s t, h = s ++ n ++ t := by
  intro h
  induction h with
  | nil =>
    by_cases hp : isPrefChk n [] = true
    · rw [subFind, if_pos hp]
      obtain ⟨t, ht⟩ := (isPrefChk_iff n []).1 hp
      simp only [Option.isSome_some, true_iff]
      exact ⟨[], t, by simpa using ht⟩
    · rw [subFind, if_neg hp]
      simp only [Option.isSome_none, Bool.false_eq_true, false_iff]
      rintro ⟨s, t, hst⟩
      have hs : s = [] ∧ n ++ t = [] := by
        constructor
        · cases s with
          | nil => rfl
          | cons a as => simp at hst
        · cases s with
          | nil => simpa using hst.symm
          | cons a as => simp at hst
      have hn : n = [] := by
        cases n with
        | nil => rfl
        | cons a as => simp at hs
      exact hp (by rw [hn]; rfl)
  | cons a h2 ih =>
    by_cases hp : isPrefChk n (a :: h2) = true
    · rw [subFind, if_pos hp]
      obtain ⟨t, ht⟩ := (isPrefChk_iff n (a :: h2)).1 hp
      simp only [Option.isSome_some, true_iff]
      exact ⟨[], t, by simpa using ht⟩
    · rw [subFind, if_neg hp]
      have hmap : ((subFind n h2).map (· + 1)).isSome = (subFind n h2).isSome := by
        cases subFind n h2 <;> rfl
      rw [hmap, ih]
      constructor
      · rintro ⟨s, t, hst⟩
        exact ⟨a :: s, t, by simp [hst]⟩
      · rintro ⟨s, t, hst⟩
        cases s with
        | nil =>
          exact absurd ((isPrefChk_iff n (a :: h2)).2 ⟨t, by simpa using hst⟩) hp
        | cons b s2 =>
          rw [List.cons_append, List.cons_append] at hst
          injection hst with hx1 hx2
          exact ⟨s2, t, hx2⟩

lemma pyIn_iff (needle hay : String) :
    pyIn needle hay = true ↔ ∃ s t : String, hay = s ++ needle ++ t := by
  unfold pyIn
  rw [subFind_isSome_iff]
  constructor
  · rintro ⟨s, t, hst⟩
    refine ⟨String.mk s, String.mk t, string_eq_of_data_eq ?_⟩
    simpa [String.data_append] using hst
  · rintro ⟨s, t, rfl⟩
    exact ⟨s.data, t.data, by simp [String.data_append]⟩

lemma subFind_nil_needle : ∀ l : List Char, subFind [] l = some 0 := by
  intro l
  cases l <;> rfl

/-- C10 (confirmed): `user_prompt_preset` returns the first preset in
list order that contains the query as a substring (and `""` when no
preset does), and the empty query always selects the first preset. -/
theorem c10_first_containing_preset :
    (∀ (presets : List String) (q : String),
      (∃ l1 p l2, presets = l1 ++ p :: l2 ∧ user_prompt_preset q presets = p ∧
        (∃ s t, p = s ++ q ++ t) ∧ ∀ x ∈ l1, ¬ ∃ s t, x = s ++ q ++ t) ∨
      (user_prompt_preset q presets = "" ∧
        ∀ x ∈ presets, ¬ ∃ s t, x = s ++ q ++ t)) ∧
    (∀ (p : String) (rest : List String), user_prompt_preset "" (p :: rest) = p) := by
  constructor
  · intro presets q
    induction presets with
    | nil => exact Or.inr ⟨rfl, by simp⟩
    | cons p rest ih =>
      by_cases hc : pyIn q p = true
      · left
        obtain ⟨s, t, hst⟩ := (pyIn_iff q p).1 hc
        exact ⟨[], p, rest, rfl, by simp [user_prompt_preset, hc], ⟨s, t, hst⟩,
          by simp⟩
      · have hnc : ¬ ∃ s t, p = s ++ q ++ t := fun hex => hc ((pyIn_iff q p).2 hex)
        have hstep : user_prompt_preset q (p :: rest) = user_prompt_preset q rest := by
          simp [user_prompt_preset, hc]
        rcases ih with ⟨l1, p0, l2, hsplit, hres, hcont, hnone⟩ | ⟨hres, hnone⟩
        · left
          refine ⟨p :: l1, p0, l2, by rw [hsplit, List.cons_append], ?_, hcont, ?_⟩
          · rw [hstep, hres]
          · intro x hx
            rcases List.mem_cons.1 hx with rfl | hx2
            · exact hnc
            · exact hnone x hx2
        · right
          refine ⟨by rw [hstep, hres], ?_⟩
          intro x hx
          rcases List.mem_cons.1 hx with rfl | hx2
          · exact hnc
          · exact hnone x hx2
  · intro p rest
    have hin : pyIn "" p = true := by
      unfold pyIn
      rw [show ("" : String).data = [] from rfl, subFind_nil_needle]
      rfl
    simp [user_prompt_preset, hin]

/-- Witness for C10: the empty query selects the first found preset. -/
theorem c10_witness :
    user_prompt_preset ""
      ("ServerProfiles/MyPreset.html" :: ["ServerProfiles/Other.html"]) =
      "ServerProfiles/MyPreset.html" :=
  c10_first_containing_preset.2 "ServerProfiles/MyPreset.html"
    ["ServerProfiles/Other.html"]

/-! ## Claims C6, C7, C8: the generated parameter file -/

lemma str_empty_append (s : String) : "" ++ s = s :=
  string_eq_of_data_eq (by
    rw [String.data_append, show ("" : String).data = [] from rfl,
      List.nil_append])

lemma joinSep_cons_ne (sep x : String) (rest : List String) (h : rest ≠ []) :
    joinSep sep (x :: rest) = x ++ sep ++ joinSep sep rest := by
  cases rest with
  | nil => exact absurd rfl h
  | cons y t => rfl

lemma modparam_foldl_eq (drive : String) (cwd : List String) :
    ∀ (mods : List String) (acc : String), mods ≠ [] →
      mods.foldl (fun a m => a ++ (modPath drive cwd m ++ ";")) acc =
        acc ++ joinSep ";" (mods.map (modPath drive cwd)) ++ ";" := by
  intro mods
  induction mods with
  | nil => intro acc h; exact absurd rfl h
  | cons m rest ih =>
    intro acc h
    cases rest with
    | nil => simp [joinSep, String.append_assoc]
    | cons m2 rest2 =>
      rw [List.foldl_cons, ih (acc ++ (modPath drive cwd m ++ ";")) (by simp)]
      simp [joinSep, String.append_assoc]

lemma exists_prefix_joinSep (sep : String) :
    ∀ (q l : List String), l ≠ [] → ∀ base : String,
      ∃ pfx, base ++ sep ++ joinSep sep (q ++ l) = pfx ++ (sep ++ joinSep sep l) := by
  intro q
  induction q with
  | nil =>
    intro l hl base
    exact ⟨base, by rw [List.nil_append, String.append_assoc]⟩
  | cons x q2 ih =>
    intro l hl base
    obtain ⟨pfx, hp⟩ := ih l hl (base ++ sep ++ x)
    refine ⟨pfx, ?_⟩
    rw [List.cons_append, joinSep_cons_ne sep x (q2 ++ l) (by
      intro hq
      rcases List.append_eq_nil.1 hq with ⟨h1, h2⟩
      exact hl h2)]
    rw [← hp]
    simp [String.append_assoc]

lemma normComps_concrete (acc : List String) :
    normComps acc ["..", "..", "workshop", "content", "107410", "123456789"] =
      acc.dropLast.dropLast ++ ["workshop", "content", "107410", "123456789"] := by
  simp [normComps]

/-- C6 (confirmed): for a non-empty resolved mod-ID list the parameter
file text is the line `-servermod=""` followed by the line
`-mod="..."`, whose quoted part is the `;`-joined (and `;`-terminated)
list of the absolute paths built from the fixed relative content root
`..\..\workshop\content\107410\<id>`; and for the mod ID `123456789`
that absolute path ends in `\workshop\content\107410\123456789`
whatever the working directory is. -/
theorem c6_params_file_format (drive : String) (cwd : List String)
    (ids : List String) (h : ids ≠ []) :
    paramsContent drive cwd ids =
      "-servermod=\"\"" ++ "\n" ++ "-mod=\"" ++
        (joinSep ";" (ids.map (modPath drive cwd)) ++ ";") ++ "\"" ∧
    ∃ pfx, modPath drive cwd "123456789" =
      pfx ++ "\\workshop\\content\\107410\\123456789" := by
  constructor
  · unfold paramsContent modparamOf
    rw [modparam_foldl_eq drive cwd ids "" h]
    rw [str_empty_append]
    rw [show ("-servermod=\"\"" : String) ++ "\n" ++ "-mod=\"" =
      "-servermod=\"\"\n-mod=\"" from rfl]
  · unfold modPath pyAbspath
    rw [show splitPath ("..\\..\\workshop\\content\\107410\\" ++ "123456789") =
      ["..", "..", "workshop", "content", "107410", "123456789"] from by rfl]
    rw [normComps_concrete cwd]
    obtain ⟨pfx, hp⟩ := exists_prefix_joinSep "\\" cwd.dropLast.dropLast
      ["workshop", "content", "107410", "123456789"] (by simp) drive
    refine ⟨pfx, ?_⟩
    rw [hp]
    rw [show ("\\" : String) ++
      joinSep "\\" ["workshop", "content", "107410", "123456789"] =
      "\\workshop\\content\\107410\\123456789" from rfl]

/-- Witness for C6 at a concrete working directory and the claim's mod
ID `123456789`. -/
theorem c6_witness :
    paramsContent "C:" ["SteamLibrary", "steamapps", "common", "Arma 3 Server"]
      ["123456789"] =
      "-servermod=\"\"" ++ "\n" ++ "-mod=\"" ++
        (joinSep ";" (["123456789"].map
          (modPath "C:" ["SteamLibrary", "steamapps", "common", "Arma 3 Server"])) ++
          ";") ++ "\"" ∧
    ∃ pfx, modPath "C:" ["SteamLibrary", "steamapps", "common", "Arma 3 Server"]
      "123456789" = pfx ++ "\\workshop\\content\\107410\\123456789" :=
  c6_params_file_format "C:" ["SteamLibrary", "steamapps", "common", "Arma 3 Server"]
    ["123456789"] (by decide)

/-- C7 (confirmed): for a preset document yielding zero mod IDs,
writing the parameter file still succeeds and writes the two-line
content whose `-mod` line is the empty join `-mod=""`. -/
theorem c7_empty_mod_join (tok : String → List HtmlEvent) (drive : String)
    (cwd : List String) (preset name txt : String) (σ : FS)
    (hread : getVal σ.files preset = some txt)
    (hmods : modIdList (runParser (tok txt)) = []) :
    writeParamsFileFS tok drive cwd preset name σ =
      (true, { σ with files :=
        (upsert σ.files (dstParamsPath name) "-servermod=\"\"\n-mod=\"\"") }) := by
  simp only [writeParamsFileFS, getModsFromPreset, hread]
  rw [hmods]
  rw [show paramsContent drive cwd [] = "-servermod=\"\"\n-mod=\"\"" from rfl]

/-- Witness for C7: a preset file whose text parses to no complete mod
entries still gets a `params.txt` with the empty `-mod=""` join. -/
theorem c7_witness :
    writeParamsFileFS (fun _ => []) "C:" ["Arma 3 Server"]
      "ServerProfiles\\Empty.html" "Empty"
      { dirs := [], files := [("ServerProfiles\\Empty.html", "no mods here")] } =
      (true,
        { dirs := [],
          files := (upsert [("ServerProfiles\\Empty.html", "no mods here")]
                     (dstParamsPath "Empty") "-servermod=\"\"\n-mod=\"\"") }) :=
  c7_empty_mod_join (fun _ => []) "C:" ["Arma 3 Server"]
    "ServerProfiles\\Empty.html" "Empty" "no mods here"
    { dirs := [], files := [("ServerProfiles\\Empty.html", "no mods here")] }
    (by decide) (by decide)

/-- C8 (confirmed): when the preset file cannot be opened or decoded,
the extractor yields zero entries without failing, and the caller
proceeds, successfully writing the parameter file for the empty mod
list. -/
theorem c8_read_failure_nonfatal (tok : String → List HtmlEvent) (drive : String)
    (cwd : List String) (preset name : String) (σ : FS)
    (hread : getVal σ.files preset = none) :
    getModsFromPreset tok none = [] ∧
    writeParamsFileFS tok drive cwd preset name σ =
      (true, { σ with files :=
        (upsert σ.files (dstParamsPath name) "-servermod=\"\"\n-mod=\"\"") }) := by
  refine ⟨rfl, ?_⟩
  simp only [writeParamsFileFS, getModsFromPreset, hread]
  rw [show paramsContent drive cwd [] = "-servermod=\"\"\n-mod=\"\"" from rfl]

/-- Witness for C8: a filesystem without the preset file. -/
theorem c8_witness :
    getModsFromPreset (fun _ => []) none = [] ∧
    writeParamsFileFS (fun _ => []) "C:" ["Arma 3 Server"]
      "ServerProfiles\\Missing.html" "Missing" { dirs := [], files := [] } =
      (true, { dirs := [], files :=
        (upsert [] (dstParamsPath "Missing") "-servermod=\"\"\n-mod=\"\"") }) :=
  c8_read_failure_nonfatal (fun _ => []) "C:" ["Arma 3 Server"]
    "ServerProfiles\\Missing.html" "Missing" { dirs := [], files := [] } rfl


/-! ## Claim C9: idempotence of the reconciliation actions -/

lemma getVal_upsert_self (l : List (String × String)) (k v : String) :
    getVal (upsert l k v) k = some v := by
  induction l with
  | nil => simp [upsert, getVal]
  | cons p t ih =>
    obtain ⟨k1, v1⟩ := p
    by_cases h : k1 = k
    · simp [upsert, getVal, h]
    · simp [upsert, getVal, h, ih]

lemma getVal_upsert_ne (l : List (String × String)) (k v k1 : String)
    (h : k1 ≠ k) : getVal (upsert l k v) k1 = getVal l k1 := by
  induction l with
  | nil => simp [upsert, getVal, Ne.symm h]
  | cons p t ih =>
    obtain ⟨k2, v2⟩ := p
    by_cases hk : k2 = k
    · subst hk
      simp [upsert, getVal, Ne.symm h]
    · simp [upsert, getVal, hk, ih]

lemma upsert_noop (l : List (String × String)) (k v : String)
    (h : getVal l k = some v) : upsert l k v = l := by
  induction l with
  | nil => simp [getVal] at h
  | cons p t ih =>
    obtain ⟨k1, v1⟩ := p
    by_cases hk : k1 = k
    · subst hk
      have hv : v1 = v := by simpa [getVal] using h
      subst hv
      simp [upsert]
    · have ht : getVal t k = some v := by simpa [getVal, hk] using h
      simp [upsert, hk, ih ht]

lemma verifyDefaultConfigs_dirs (b s : String) (σ : FS) :
    (verifyDefaultConfigs b s σ).dirs = σ.dirs := by
  unfold verifyDefaultConfigs
  try dsimp only
  by_cases hb : (getVal σ.files baseBasicPath).isSome = true
  · rw [if_pos hb]
    by_cases hs : (getVal σ.files baseServerPath).isSome = true
    · rw [if_pos hs]
    · rw [if_neg hs]
  · rw [if_neg hb]
    try dsimp only
    by_cases hs :
        (getVal (upsert σ.files baseBasicPath b) baseServerPath).isSome = true
    · rw [if_pos hs]
    · rw [if_neg hs]

lemma verifyDefaultConfigs_files_congr (b s : String) (σ1 σ2 : FS)
    (h : σ1.files = σ2.files) :
    (verifyDefaultConfigs b s σ1).files = (verifyDefaultConfigs b s σ2).files := by
  unfold verifyDefaultConfigs
  try dsimp only
  simp only [apply_ite FS.files]
  try dsimp only
  rw [h]

lemma option_get_of_not_isSome {α : Type} (o : Option α)
    (h : ¬ o.isSome = true) : o = none := by
  cases o with
  | none => rfl
  | some v => exact absurd rfl h

lemma verifyDefaultConfigs_files_basic (b s : String) (σ : FS) :
    getVal (verifyDefaultConfigs b s σ).files baseBasicPath =
      some ((getVal σ.files baseBasicPath).getD b) := by
  unfold verifyDefaultConfigs
  try dsimp only
  by_cases hb : (getVal σ.files baseBasicPath).isSome = true
  · rw [if_pos hb]
    obtain ⟨vb, hvb⟩ := Option.isSome_iff_exists.1 hb
    by_cases hs : (getVal σ.files baseServerPath).isSome = true
    · rw [if_pos hs, hvb]
      rfl
    · rw [if_neg hs]
      try dsimp only
      rw [getVal_upsert_ne _ baseServerPath s baseBasicPath (by decide), hvb]
      rfl
  · rw [if_neg hb]
    try dsimp only
    have hbnone : getVal σ.files baseBasicPath = none :=
      option_get_of_not_isSome _ hb
    by_cases hs :
        (getVal (upsert σ.files baseBasicPath b) baseServerPath).isSome = true
    · rw [if_pos hs]
      try dsimp only
      rw [getVal_upsert_self, hbnone]
      rfl
    · rw [if_neg hs]
      try dsimp only
      rw [getVal_upsert_ne _ baseServerPath s baseBasicPath (by decide),
        getVal_upsert_self, hbnone]
      rfl

lemma verifyDefaultConfigs_files_server (b s : String) (σ : FS) :
    getVal (verifyDefaultConfigs b s σ).files baseServerPath =
      some ((getVal σ.files baseServerPath).getD s) := by
  unfold verifyDefaultConfigs
  try dsimp only
  by_cases hb : (getVal σ.files baseBasicPath).isSome = true
  · rw [if_pos hb]
    by_cases hs : (getVal σ.files baseServerPath).isSome = true
    · obtain ⟨vs, hvs⟩ := Option.isSome_iff_exists.1 hs
      rw [if_pos hs, hvs]
      rfl
    · rw [if_neg hs]
      try dsimp only
      rw [getVal_upsert_self, option_get_of_not_isSome _ hs]
      rfl
  · rw [if_neg hb]
    try dsimp only
    have hkeep : getVal (upsert σ.files baseBasicPath b) baseServerPath =
        getVal σ.files baseServerPath :=
      getVal_upsert_ne _ baseBasicPath b baseServerPath (by decide)
    by_cases hs :
        (getVal (upsert σ.files baseBasicPath b) baseServerPath).isSome = true
    · obtain ⟨vs, hvs⟩ := Option.isSome_iff_exists.1 hs
      rw [if_pos hs, hvs]
      rw [hkeep] at hvs
      rw [hvs]
      rfl
    · rw [if_neg hs]
      try dsimp only
      rw [getVal_upsert_self]
      rw [hkeep] at hs
      rw [option_get_of_not_isSome _ hs]
      rfl

lemma verifyDefaultConfigs_files_other (b s : String) (σ : FS) (k : String)
    (h1 : k ≠ baseBasicPath) (h2 : k ≠ baseServerPath) :
    getVal (verifyDefaultConfigs b s σ).files k = getVal σ.files k := by
  unfold verifyDefaultConfigs
  try dsimp only
  by_cases hb : (getVal σ.files baseBasicPath).isSome = true
  · rw [if_pos hb]
    by_cases hs : (getVal σ.files baseServerPath).isSome = true
    · rw [if_pos hs]
    · rw [if_neg hs]
      try dsimp only
      exact getVal_upsert_ne _ baseServerPath s k h2
  · rw [if_neg hb]
    try dsimp only
    by_cases hs :
        (getVal (upsert σ.files baseBasicPath b) baseServerPath).isSome = true
    · rw [if_pos hs]
      try dsimp only
      exact getVal_upsert_ne _ baseBasicPath b k h1
    · rw [if_neg hs]
      try dsimp only
      rw [getVal_upsert_ne _ baseServerPath s k h2]
      exact getVal_upsert_ne _ baseBasicPath b k h1

lemma verifyDefaultConfigs_noop (b s : String) (σ : FS)
    (h1 : (getVal σ.files baseBasicPath).isSome = true)
    (h2 : (getVal σ.files baseServerPath).isSome = true) :
    verifyDefaultConfigs b s σ = σ := by
  unfold verifyDefaultConfigs
  try dsimp only
  rw [if_pos h1, if_pos h2]

lemma getVal_ite_upsert (c : Bool) (l : List (String × String)) (k v k1 : String)
    (h : k1 ≠ k) :
    getVal (if c = true then upsert l k v else l) k1 = getVal l k1 := by
  cases c
  · rfl
  · rw [if_pos rfl]
    exact getVal_upsert_ne l k v k1 h

lemma createPresetFiles_result (tok : String → List HtmlEvent) (drive : String)
    (cwd : List String) (isWin : Bool) (dlB dlS preset name : String) (σ : FS)
    (hSB : baseBasicPath ≠ dstServerPath name) :
    createPresetFiles tok drive cwd isWin dlB dlS preset name σ =
      ((true : Bool),
        { dirs := (if presetDirPath name ∈ σ.dirs then σ.dirs
            else σ.dirs ++ [presetDirPath name]),
          files :=
            (let f2 := (verifyDefaultConfigs dlB dlS σ).files
             let f3 := upsert f2 (dstServerPath name)
               ((getVal σ.files baseServerPath).getD dlS)
             let f4 := upsert f3 (dstBasicPath name)
               ((getVal σ.files baseBasicPath).getD dlB)
             let f5 := if isWin then upsert f4 (dstBatPath name) startBatContent
               else f4
             upsert f5 (dstParamsPath name)
               (paramsContent drive cwd
                 (getModsFromPreset tok (getVal f5 preset)))) }) := by
  have hAf : (if presetDirPath name ∈ σ.dirs then σ
      else { σ with dirs := σ.dirs ++ [presetDirPath name] }).files = σ.files := by
    split <;> rfl
  have hAd : (if presetDirPath name ∈ σ.dirs then σ
      else { σ with dirs := σ.dirs ++ [presetDirPath name] }).dirs =
      (if presetDirPath name ∈ σ.dirs then σ.dirs
       else σ.dirs ++ [presetDirPath name]) := by
    split <;> rfl
  unfold createPresetFiles writeParamsFileFS
  try dsimp only
  rw [verifyDefaultConfigs_files_congr dlB dlS _ σ hAf]
  rw [verifyDefaultConfigs_files_server dlB dlS σ]
  try dsimp only
  rw [getVal_upsert_ne _ (dstServerPath name)
    ((getVal σ.files baseServerPath).getD dlS) baseBasicPath hSB]
  rw [verifyDefaultConfigs_files_basic dlB dlS σ]
  try dsimp only
  simp only [apply_ite FS.files, apply_ite FS.dirs, ite_self]
  try dsimp only
  rw [verifyDefaultConfigs_dirs dlB dlS _, hAd]

lemma createPresetFiles_noop (tok : String → List HtmlEvent) (drive : String)
    (cwd : List String) (isWin : Bool) (dlB dlS preset name : String) (σ : FS)
    (hdir : presetDirPath name ∈ σ.dirs)
    (hbB : (getVal σ.files baseBasicPath).isSome = true)
    (hbS : (getVal σ.files baseServerPath).isSome = true)
    (hS : getVal σ.files (dstServerPath name) =
      some ((getVal σ.files baseServerPath).getD dlS))
    (hB : getVal σ.files (dstBasicPath name) =
      some ((getVal σ.files baseBasicPath).getD dlB))
    (hBat : isWin = true → getVal σ.files (dstBatPath name) = some startBatContent)
    (hP : getVal σ.files (dstParamsPath name) =
      some (paramsContent drive cwd
        (getModsFromPreset tok (getVal σ.files preset)))) :
    createPresetFiles tok drive cwd isWin dlB dlS preset name σ = (true, σ) := by
  unfold createPresetFiles writeParamsFileFS
  try dsimp only
  rw [if_pos hdir]
  rw [verifyDefaultConfigs_noop dlB dlS σ hbB hbS]
  obtain ⟨sv, hsv⟩ := Option.isSome_iff_exists.1 hbS
  rw [hsv]
  try dsimp only
  have hupS : upsert σ.files (dstServerPath name) sv = σ.files := by
    apply upsert_noop
    rw [hS, hsv]
    rfl
  rw [hupS]
  try dsimp only
  obtain ⟨bv, hbv⟩ := Option.isSome_iff_exists.1 hbB
  rw [hbv]
  try dsimp only
  have hupB : upsert σ.files (dstBasicPath name) bv = σ.files := by
    apply upsert_noop
    rw [hB, hbv]
    rfl
  rw [hupB]
  try dsimp only
  cases isWin with
  | true =>
    rw [if_pos rfl]
    rw [upsert_noop _ _ _ (hBat rfl)]
    try dsimp only
    rw [upsert_noop _ _ _ hP]
  | false =>
    rw [if_neg (by decide)]
    try dsimp only
    rw [upsert_noop _ _ _ hP]

lemma createPresetFiles_idem (tok : String → List HtmlEvent) (drive : String)
    (cwd : List String) (isWin : Bool) (dlB dlS preset name : String) (σ : FS)
    (h1 : dstServerPath name ≠ dstBasicPath name)
    (h2 : dstServerPath name ≠ dstBatPath name)
    (h3 : dstServerPath name ≠ dstParamsPath name)
    (h4 : dstBasicPath name ≠ dstBatPath name)
    (h5 : dstBasicPath name ≠ dstParamsPath name)
    (h6 : dstBatPath name ≠ dstParamsPath name)
    (h7 : baseBasicPath ≠ dstServerPath name)
    (h8 : baseBasicPath ≠ dstBasicPath name)
    (h9 : baseBasicPath ≠ dstBatPath name)
    (h10 : baseBasicPath ≠ dstParamsPath name)
    (h11 : baseServerPath ≠ dstServerPath name)
    (h12 : baseServerPath ≠ dstBasicPath name)
    (h13 : baseServerPath ≠ dstBatPath name)
    (h14 : baseServerPath ≠ dstParamsPath name)
    (h15 : preset ≠ dstParamsPath name) :
    createPresetFiles tok drive cwd isWin dlB dlS preset name
      (createPresetFiles tok drive cwd isWin dlB dlS preset name σ).2 =
      createPresetFiles tok drive cwd isWin dlB dlS preset name σ := by
  rw [createPresetFiles_result tok drive cwd isWin dlB dlS preset name σ h7]
  try dsimp only
  apply createPresetFiles_noop
  · try dsimp only
    split
    · assumption
    · exact List.mem_append.2 (Or.inr (List.mem_singleton.2 rfl))
  · try dsimp only
    rw [getVal_upsert_ne _ (dstParamsPath name) _ baseBasicPath h10,
      getVal_ite_upsert isWin _ (dstBatPath name) _ baseBasicPath h9,
      getVal_upsert_ne _ (dstBasicPath name) _ baseBasicPath h8,
      getVal_upsert_ne _ (dstServerPath name) _ baseBasicPath h7,
      verifyDefaultConfigs_files_basic dlB dlS σ]
    rfl
  · try dsimp only
    rw [getVal_upsert_ne _ (dstParamsPath name) _ baseServerPath h14,
      getVal_ite_upsert isWin _ (dstBatPath name) _ baseServerPath h13,
      getVal_upsert_ne _ (dstBasicPath name) _ baseServerPath h12,
      getVal_upsert_ne _ (dstServerPath name) _ baseServerPath h11,
      verifyDefaultConfigs_files_server dlB dlS σ]
    rfl
  · try dsimp only
    rw [getVal_upsert_ne _ (dstParamsPath name) _ (dstServerPath name) h3,
      getVal_ite_upsert isWin _ (dstBatPath name) _ (dstServerPath name) h2,
      getVal_upsert_ne _ (dstBasicPath name) _ (dstServerPath name) h1,
      getVal_upsert_self,
      getVal_upsert_ne _ (dstParamsPath name) _ baseServerPath h14,
      getVal_ite_upsert isWin _ (dstBatPath name) _ baseServerPath h13,
      getVal_upsert_ne _ (dstBasicPath name) _ baseServerPath h12,
      getVal_upsert_ne _ (dstServerPath name) _ baseServerPath h11,
      verifyDefaultConfigs_files_server dlB dlS σ]
    rfl
  · try dsimp only
    rw [getVal_upsert_ne _ (dstParamsPath name) _ (dstBasicPath name) h5,
      getVal_ite_upsert isWin _ (dstBatPath name) _ (dstBasicPath name) h4,
      getVal_upsert_self,
      getVal_upsert_ne _ (dstParamsPath name) _ baseBasicPath h10,
      getVal_ite_upsert isWin _ (dstBatPath name) _ baseBasicPath h9,
      getVal_upsert_ne _ (dstBasicPath name) _ baseBasicPath h8,
      getVal_upsert_ne _ (dstServerPath name) _ baseBasicPath h7,
      verifyDefaultConfigs_files_basic dlB dlS σ]
    rfl
  · intro hw
    subst hw
    try dsimp only
    rw [getVal_upsert_ne _ (dstParamsPath name) _ (dstBatPath name) h6,
      if_pos rfl, getVal_upsert_self]
  · try dsimp only
    rw [getVal_upsert_self,
      getVal_upsert_ne _ (dstParamsPath name) _ preset h15]

lemma writeParamsFileFS_idem (tok : String → List HtmlEvent) (drive : String)
    (cwd : List String) (preset name : String) (σ : FS)
    (h15 : preset ≠ dstParamsPath name) :
    writeParamsFileFS tok drive cwd preset name
      (writeParamsFileFS tok drive cwd preset name σ).2 =
      writeParamsFileFS tok drive cwd preset name σ := by
  unfold writeParamsFileFS
  try dsimp only
  rw [getVal_upsert_ne σ.files (dstParamsPath name) _ preset h15]
  rw [upsert_noop _ _ _ (getVal_upsert_self _ _ _)]

/-- C9 (confirmed): for every preset and reconciliation choice (do
nothing, regenerate the mod parameter only, or full materialization),
repeating the same choice is idempotent on the on-disk state, provided
the preset path, the two base config paths and the four generated file
paths are pairwise distinct (as they always are for a real preset);
in particular full materialization twice equals doing it once. -/
theorem c9_reconcile_idempotent (tok : String → List HtmlEvent) (drive : String)
    (cwd : List String) (isWin : Bool) (dlB dlS preset name : String)
    (hd : List.Pairwise (fun x y => x ≠ y)
      [dstServerPath name, dstBasicPath name, dstBatPath name, dstParamsPath name,
       baseBasicPath, baseServerPath, preset]) :
    ∀ (a : RAction) (σ : FS),
      reconcileAction tok drive cwd isWin dlB dlS preset name a
        (reconcileAction tok drive cwd isWin dlB dlS preset name a σ).2 =
      reconcileAction tok drive cwd isWin dlB dlS preset name a σ := by
  rw [List.pairwise_cons] at hd
  obtain ⟨gS, hd⟩ := hd
  rw [List.pairwise_cons] at hd
  obtain ⟨gB, hd⟩ := hd
  rw [List.pairwise_cons] at hd
  obtain ⟨gBat, hd⟩ := hd
  rw [List.pairwise_cons] at hd
  obtain ⟨gP, hd⟩ := hd
  intro a σ
  cases a with
  | nothing => rfl
  | regenParams =>
    dsimp only [reconcileAction]
    exact writeParamsFileFS_idem tok drive cwd preset name σ
      (Ne.symm (gP preset (by simp)))
  | regenAll =>
    dsimp only [reconcileAction]
    exact createPresetFiles_idem tok drive cwd isWin dlB dlS preset name σ
      (gS (dstBasicPath name) (by simp))
      (gS (dstBatPath name) (by simp))
      (gS (dstParamsPath name) (by simp))
      (gB (dstBatPath name) (by simp))
      (gB (dstParamsPath name) (by simp))
      (gBat (dstParamsPath name) (by simp))
      (Ne.symm (gS baseBasicPath (by simp)))
      (Ne.symm (gB baseBasicPath (by simp)))
      (Ne.symm (gBat baseBasicPath (by simp)))
      (Ne.symm (gP baseBasicPath (by simp)))
      (Ne.symm (gS baseServerPath (by simp)))
      (Ne.symm (gB baseServerPath (by simp)))
      (Ne.symm (gBat baseServerPath (by simp)))
      (Ne.symm (gP baseServerPath (by simp)))
      (Ne.symm (gP preset (by simp)))

/-- Witness for C9: full materialization of the preset `MyPreset`
twice, starting from an empty filesystem, equals doing it once. -/
theorem c9_witness :
    reconcileAction (fun _ => []) "C:" ["Arma 3 Server"] true "b" "s"
      "ServerProfiles\\MyPreset.html" "MyPreset" RAction.regenAll
      (reconcileAction (fun _ => []) "C:" ["Arma 3 Server"] true "b" "s"
        "ServerProfiles\\MyPreset.html" "MyPreset" RAction.regenAll
        { dirs := [], files := [] }).2 =
    reconcileAction (fun _ => []) "C:" ["Arma 3 Server"] true "b" "s"
      "ServerProfiles\\MyPreset.html" "MyPreset" RAction.regenAll
      { dirs := [], files := [] } :=
  c9_reconcile_idempotent (fun _ => []) "C:" ["Arma 3 Server"] true "b" "s"
    "ServerProfiles\\MyPreset.html" "MyPreset" (by decide) RAction.regenAll
    { dirs := [], files := [] }
